import Mathlib

/-!
Verification of the new-post detection and delivery pipeline of
`src/main.py` (truthsocial-line-notifier).

The embedding models, faithfully to the source:
- the post record dictionary built in `get_trump_posts` (lines 82-87);
- the fetch error handling of `get_trump_posts` (lines 48-51, 92-94);
- `send_line_notification` (lines 96-127), with the HTTP transport
  abstracted as a function returning an optional status code
  (`none` = raised transport exception);
- the cursor file operations `get_last_processed_id` (lines 27-34) and
  `save_last_processed_id` (lines 36-39), with the file abstracted as an
  optional string (`none` = file absent);
- the body of `main` (lines 129-174): timestamp sort (line 146), the
  novelty scan (lines 148-159), delivery loop and single persistence
  (lines 162-172).

Python string comparison (`>` on `str`) is lexicographic on code points,
which coincides with the `LinearOrder String` instance (lexicographic on
`Char`, ordered by code point).
-/

namespace TruthSocial

/-- One post record, the dict built at src/main.py lines 82-87. -/
structure PostRecord where
  id : String
  content : String
  timestamp : String
  link : String
deriving DecidableEq, Repr

/-- The body of the novelty loop, src/main.py lines 152-159: state is the
pair `(new_posts, newest_post_id)`; a post is appended when
`not last_post_id or post_id > last_post_id`, and `newest_post_id` is
updated when `not newest_post_id or post_id > newest_post_id`.
Python `not s` on a string is true exactly when `s` is empty. -/
def noveltyStep (last_post_id : String) (acc : List PostRecord × String)
    (post : PostRecord) : List PostRecord × String :=
  if last_post_id = "" ∨ last_post_id < post.id then
    (acc.1 ++ [post],
     if acc.2 = "" ∨ acc.2 < post.id then post.id else acc.2)
  else acc

/-- The novelty scan, src/main.py lines 148-159: fold the loop body over
the (already sorted) posts starting from `([], last_post_id)`. -/
def noveltyPass (last_post_id : String) (posts : List PostRecord) :
    List PostRecord × String :=
  posts.foldl (noveltyStep last_post_id) ([], last_post_id)

/-- The sort at src/main.py line 146: ascending by timestamp
(`posts.sort(key=lambda x: x.get('timestamp', ''))`, a stable merge sort
in CPython; modelled by the stable `List.mergeSort`). -/
def sortPosts (posts : List PostRecord) : List PostRecord :=
  posts.mergeSort (fun a b => decide (a.timestamp ≤ b.timestamp))

/-- The novelty filter of the spec (§4.2): timestamp sort followed by the
novelty scan, returning `(new_records, updated_cursor)`. -/
def noveltyFilter (last_post_id : String) (posts : List PostRecord) :
    List PostRecord × String :=
  noveltyPass last_post_id (sortPosts posts)

/-- The membership condition of the novelty loop (line 156) as a
predicate on a single record. -/
def isNew (last_post_id : String) (post : PostRecord) : Bool :=
  decide (last_post_id = "" ∨ last_post_id < post.id)

/-- Outcome of the page fetch in `get_trump_posts`: either the request
raised (network exception) or it returned a status code together with the
records the HTML parsing stage would produce from the body. -/
inductive FetchOutcome where
  | exn : FetchOutcome
  | success : Nat → List PostRecord → FetchOutcome
deriving DecidableEq, Repr

/-- `get_trump_posts`, src/main.py lines 41-94: a raised exception is
caught and yields `[]` (lines 92-94); a response with status code other
than 200 yields `[]` (lines 49-51); otherwise the parsed records are
returned. The per-container HTML extraction (lines 53-91) is abstracted
as the record list carried by the success outcome. -/
def get_trump_posts : FetchOutcome → List PostRecord
  | .exn => []
  | .success status parsed => if status ≠ 200 then [] else parsed

/-- `send_line_notification`, src/main.py lines 96-127. `token` and
`uid` model `os.getenv` results (`none` = unset); Python `not x` is true
for `None` and for the empty string. `transport` models the HTTP POST:
`none` = raised exception (caught, returns `False`, lines 125-127);
`some status` = a response; only status 200 yields `True`
(lines 119-124). -/
def send_line_notification (token uid : Option String)
    (transport : String → Option Nat) (message : String) : Bool :=
  if token.getD "" = "" ∨ uid.getD "" = "" then false
  else
    match transport message with
    | none => false
    | some status => status == 200

/-- The notification text built at src/main.py line 166. -/
def message_for (post : PostRecord) : String :=
  "Donald Trump 有新貼文！\n\n" ++ post.content ++ "\n\n連結: " ++ post.link

/-- Python `str.strip()` whitespace test: the characters for which
`str.isspace()` holds (ASCII whitespace, the C1 separators, and the
Unicode space separators). -/
def isPythonSpace (c : Char) : Bool :=
  c == ' ' || c == '\t' || c == '\n' || c == '\r' || c == '\x0b' ||
  c == '\x0c' ||
  (decide (0x1c ≤ c.toNat) && decide (c.toNat ≤ 0x1f)) ||
  c.toNat == 0x85 || c.toNat == 0xa0 || c.toNat == 0x1680 ||
  (decide (0x2000 ≤ c.toNat) && decide (c.toNat ≤ 0x200a)) ||
  c.toNat == 0x2028 || c.toNat == 0x2029 || c.toNat == 0x202f ||
  c.toNat == 0x205f || c.toNat == 0x3000

/-- Python `s.strip()`: remove leading and trailing whitespace. -/
def pyStrip (s : String) : String :=
  ⟨(s.data.dropWhile isPythonSpace).rdropWhile isPythonSpace⟩

/-- `get_last_processed_id`, src/main.py lines 27-34: read the cursor
file and strip it; an absent file (`FileNotFoundError`) yields `""`. -/
def get_last_processed_id (fs : Option String) : String :=
  match fs with
  | none => ""
  | some content => pyStrip content

/-- `save_last_processed_id`, src/main.py lines 36-39: overwrite the
cursor file with `post_id`. -/
def save_last_processed_id (post_id : String) (_fs : Option String) :
    Option String :=
  some post_id

/-- Observable effects of one run of `main`: the LINE delivery attempts
(message text and outcome of each `send_line_notification` call, in
order) and the list of cursor-file writes performed. -/
structure RunResult where
  attempts : List (String × Bool)
  saves : List String
deriving DecidableEq, Repr

/-- The body of `main`, src/main.py lines 129-174: read the cursor,
fetch; if no posts, return (lines 139-141); otherwise sort, run the
novelty scan, and if there are new posts attempt one delivery per new
post (lines 165-168) and then write the cursor exactly once (line 171). -/
def main (token uid : Option String) (transport : String → Option Nat)
    (fetch : FetchOutcome) (fs : Option String) : RunResult :=
  let last_post_id := get_last_processed_id fs
  let posts := get_trump_posts fetch
  if posts = [] then ⟨[], []⟩
  else
    let r := noveltyFilter last_post_id posts
    if r.1 = [] then ⟨[], []⟩
    else
      ⟨r.1.map (fun p =>
          (message_for p, send_line_notification token uid transport (message_for p))),
       [r.2]⟩

/-! ### Structural lemmas about the novelty scan -/

/-- The empty string is the bottom of the lexicographic order. -/
lemma empty_le (s : String) : "" ≤ s := by
  rw [String.le_iff_toList_le]
  exact List.nil_le

/-- The `newest_post_id` update at lines 158-159 computes a lexicographic
maximum. -/
lemma newest_update_eq_max (a b : String) :
    (if a = "" ∨ a < b then b else a) = max a b := by
  rcases eq_or_ne a "" with rfl | ha
  · simp [max_eq_right (empty_le b)]
  · by_cases h : a < b
    · simp [ha, h, max_eq_right h.le]
    · simp [ha, h, max_eq_left (not_lt.mp h)]

lemma noveltyStep_eq (last : String) (acc : List PostRecord × String)
    (p : PostRecord) :
    noveltyStep last acc p =
      if isNew last p then (acc.1 ++ [p], max acc.2 p.id) else acc := by
  simp only [noveltyStep, isNew, newest_update_eq_max, decide_eq_true_eq]

/-- The accumulated new-post list of the fold is the filter by `isNew`,
appended to the initial accumulator. -/
lemma foldl_noveltyStep_fst (last : String) :
    ∀ (posts : List PostRecord) (news : List PostRecord) (newest : String),
      (posts.foldl (noveltyStep last) (news, newest)).1 =
        news ++ posts.filter (isNew last) := by
  intro posts
  induction posts with
  | nil => intro news newest; simp
  | cons p ps ih =>
    intro news newest
    rw [List.foldl_cons, noveltyStep_eq]
    by_cases h : isNew last p
    · simp only [h, if_pos, List.filter_cons_of_pos h, ih, List.append_assoc,
        List.singleton_append]
    · simp only [h, Bool.false_eq_true, if_neg, not_false_iff,
        List.filter_cons_of_neg (by simpa using h), ih]

/-- The accumulated `newest_post_id` of the fold is the running maximum
of the initial value and the ids of the records passing `isNew`. -/
lemma foldl_noveltyStep_snd (last : String) :
    ∀ (posts : List PostRecord) (news : List PostRecord) (newest : String),
      (posts.foldl (noveltyStep last) (news, newest)).2 =
        (posts.filter (isNew last)).foldl (fun a p => max a p.id) newest := by
  intro posts
  induction posts with
  | nil => intro news newest; simp
  | cons p ps ih =>
    intro news newest
    rw [List.foldl_cons, noveltyStep_eq]
    by_cases h : isNew last p
    · simp only [h, if_pos, List.filter_cons_of_pos h, ih, List.foldl_cons]
    · simp only [h, Bool.false_eq_true, if_neg, not_false_iff,
        List.filter_cons_of_neg (by simpa using h), ih]

lemma noveltyPass_fst (last : String) (posts : List PostRecord) :
    (noveltyPass last posts).1 = posts.filter (isNew last) := by
  rw [noveltyPass, foldl_noveltyStep_fst, List.nil_append]

lemma noveltyPass_snd (last : String) (posts : List PostRecord) :
    (noveltyPass last posts).2 =
      (posts.filter (isNew last)).foldl (fun a p => max a p.id) last := by
  rw [noveltyPass, foldl_noveltyStep_snd]

/-- The timestamp sort is a permutation of its input. -/
lemma sortPosts_perm (posts : List PostRecord) :
    List.Perm (sortPosts posts) posts :=
  List.mergeSort_perm posts _

lemma noveltyFilter_fst (last : String) (posts : List PostRecord) :
    (noveltyFilter last posts).1 = (sortPosts posts).filter (isNew last) :=
  noveltyPass_fst last (sortPosts posts)

lemma noveltyFilter_snd (last : String) (posts : List PostRecord) :
    (noveltyFilter last posts).2 =
      ((sortPosts posts).filter (isNew last)).foldl (fun a p => max a p.id)
        last :=
  noveltyPass_snd last (sortPosts posts)

/-! ### Facts about `foldl max` -/

lemma foldl_max_init_mono {a b : String} (h : a ≤ b) :
    ∀ l : List PostRecord,
      l.foldl (fun x p => max x p.id) a ≤ l.foldl (fun x p => max x p.id) b := by
  intro l
  induction l generalizing a b with
  | nil => simpa using h
  | cons p ps ih =>
    simpa using ih (max_le_max h le_rfl)

lemma le_foldl_max (a : String) :
    ∀ l : List PostRecord, a ≤ l.foldl (fun x p => max x p.id) a := by
  intro l
  induction l generalizing a with
  | nil => simp
  | cons p ps ih =>
    calc a ≤ max a p.id := le_max_left _ _
    _ ≤ (p :: ps).foldl (fun x p => max x p.id) a := by
        simpa using ih (max a p.id)

lemma mem_le_foldl_max (a : String) {q : PostRecord} :
    ∀ l : List PostRecord, q ∈ l → q.id ≤ l.foldl (fun x p => max x p.id) a := by
  intro l
  induction l generalizing a with
  | nil => intro h; exact absurd h (List.not_mem_nil q)
  | cons p ps ih =>
    intro hq
    rcases List.mem_cons.mp hq with rfl | hq
    · calc q.id ≤ max a q.id := le_max_right _ _
      _ ≤ (q :: ps).foldl (fun x p => max x p.id) a := by
          simpa using le_foldl_max (max a q.id) ps
    · simpa using ih (max a p.id) hq

lemma foldl_max_mem (a : String) :
    ∀ l : List PostRecord,
      l.foldl (fun x p => max x p.id) a = a ∨
        ∃ q ∈ l, l.foldl (fun x p => max x p.id) a = q.id := by
  intro l
  induction l generalizing a with
  | nil => left; rfl
  | cons p ps ih =>
    rcases ih (max a p.id) with h | ⟨q, hq, h⟩
    · rcases max_choice a p.id with hm | hm
      · left; simpa [hm] using h
      · right
        exact ⟨p, List.mem_cons_self p ps, by simpa [hm] using h⟩
    · right
      exact ⟨q, List.mem_cons_of_mem p hq, by simpa using h⟩

lemma foldl_max_perm {l₁ l₂ : List PostRecord} (h : List.Perm l₁ l₂)
    (a : String) :
    l₁.foldl (fun x p => max x p.id) a = l₂.foldl (fun x p => max x p.id) a :=
  h.foldl_eq' (fun x _ y _ z => by
    simp only [max_assoc, max_comm x.id y.id]) a

lemma mem_sortPosts {p : PostRecord} {S : List PostRecord} :
    p ∈ sortPosts S ↔ p ∈ S :=
  (sortPosts_perm S).mem_iff

lemma isNew_true_iff {c : String} {p : PostRecord} :
    isNew c p = true ↔ (c = "" ∨ c < p.id) := by
  simp [isNew]

lemma le_empty_iff {a : String} : a ≤ "" ↔ a = "" :=
  ⟨fun h => le_antisymm h (empty_le a), fun h => h ▸ le_refl _⟩

/-! ### Claims -/

/-- C1: for every cursor `c` and candidate list `S`, the set of records
classified as new is exactly those `r ∈ S` with `c` empty or `r.id > c`
(lexicographically); in particular, for non-empty `c`, no record with
`r.id ≤ c` ever appears in the new-set. -/
theorem C1_monotonic_filtering (c : String) (S : List PostRecord)
    (r : PostRecord) :
    (r ∈ (noveltyFilter c S).1 ↔ (r ∈ S ∧ (c = "" ∨ c < r.id))) ∧
    (c ≠ "" → r ∈ (noveltyFilter c S).1 → ¬ r.id ≤ c) := by
  have hmem : r ∈ (noveltyFilter c S).1 ↔ (r ∈ S ∧ (c = "" ∨ c < r.id)) := by
    rw [noveltyFilter_fst, List.mem_filter, mem_sortPosts, isNew_true_iff]
  refine ⟨hmem, fun hc hr => ?_⟩
  rcases (hmem.mp hr).2 with h | h
  · exact absurd h hc
  · exact not_le.mpr h

lemma sortPosts_singleton (p : PostRecord) : sortPosts [p] = [p] := by
  simp [sortPosts]

/-- Concrete string strict comparisons reduce on the character lists. -/
lemma str_lt_of_data {a b : String} (h : a.data < b.data) : a < b :=
  String.lt_iff_toList_lt.mpr h

lemma isNew_of {c : String} {p : PostRecord} (h : c = "" ∨ c < p.id) :
    isNew c p = true :=
  isNew_true_iff.mpr h

/-- C1 witness at a concrete input: cursor `"100"`, one candidate with
id `"101"`, which is classified new and has id above the cursor. -/
theorem C1_monotonic_filtering_witness :
    ¬ (PostRecord.mk "101" "c" "t" "l").id ≤ "100" :=
  (C1_monotonic_filtering "100" [PostRecord.mk "101" "c" "t" "l"]
      (PostRecord.mk "101" "c" "t" "l")).2
    (by decide)
    (by
      rw [noveltyFilter_fst, sortPosts_singleton,
        List.filter_cons_of_pos (isNew_of (Or.inr (str_lt_of_data (by decide))))]
      exact List.mem_cons_self _ _)

/-- C2: on an empty cursor, every candidate of a non-empty candidate
list is classified new and the updated cursor is the lexicographic
maximum of the candidates' ids. -/
theorem C2_bootstrap (S : List PostRecord) (hS : S ≠ []) :
    (∀ r, r ∈ (noveltyFilter "" S).1 ↔ r ∈ S) ∧
    (noveltyFilter "" S).2 ∈ S.map (fun p => p.id) ∧
    (∀ r ∈ S, r.id ≤ (noveltyFilter "" S).2) := by
  have hfil : (sortPosts S).filter (isNew "") = sortPosts S :=
    List.filter_eq_self.mpr (fun a _ => by simp [isNew])
  have h1 : (noveltyFilter "" S).1 = sortPosts S := by
    rw [noveltyFilter_fst, hfil]
  have h2 : (noveltyFilter "" S).2 =
      (sortPosts S).foldl (fun a p => max a p.id) "" := by
    rw [noveltyFilter_snd, hfil]
  have hub : ∀ r ∈ S, r.id ≤ (noveltyFilter "" S).2 := by
    intro r hr
    rw [h2]
    exact mem_le_foldl_max "" _ (mem_sortPosts.mpr hr)
  refine ⟨fun r => by rw [h1, mem_sortPosts], ?_, hub⟩
  rcases foldl_max_mem "" (sortPosts S) with h | ⟨q, hq, h⟩
  · obtain ⟨r, hr⟩ := List.exists_mem_of_ne_nil S hS
    have : r.id = "" := le_empty_iff.mp (by simpa [h2, h] using hub r hr)
    rw [h2, h]
    exact List.mem_map.mpr ⟨r, hr, this⟩
  · rw [h2, h]
    exact List.mem_map.mpr ⟨q, mem_sortPosts.mp hq, rfl⟩

/-- C2 witness: first run with candidate id `"005"`. -/
theorem C2_bootstrap_witness :
    ([PostRecord.mk "005" "c" "t" "l"] : List PostRecord) ≠ [] ∧
    (noveltyFilter "" [PostRecord.mk "005" "c" "t" "l"]).2 ∈
      [PostRecord.mk "005" "c" "t" "l"].map (fun p => p.id) :=
  ⟨by decide, (C2_bootstrap [PostRecord.mk "005" "c" "t" "l"] (by decide)).2.1⟩

/-- Evaluation of the filter on the degenerate input: empty cursor and a
single candidate whose id is the empty string. The candidate passes the
`not last_post_id` test (line 156), yet `newest_post_id` stays `""`. -/
lemma noveltyFilter_empty_id :
    noveltyFilter "" [PostRecord.mk "" "c" "t" "l"] =
      ([PostRecord.mk "" "c" "t" "l"], "") := by
  have hnew : isNew "" (PostRecord.mk "" "c" "t" "l") = true :=
    isNew_of (Or.inl rfl)
  refine Prod.ext ?_ ?_
  · rw [noveltyFilter_fst, sortPosts_singleton, List.filter_cons_of_pos hnew,
      List.filter_nil]
  · rw [noveltyFilter_snd, sortPosts_singleton, List.filter_cons_of_pos hnew,
      List.filter_nil]
    show max "" "" = ""
    exact max_self ""

/-- Evaluation of the filter on cursor `"100"` and a single candidate
with id `"101"`. -/
lemma noveltyFilter_100_101 :
    noveltyFilter "100" [PostRecord.mk "101" "c" "t" "l"] =
      ([PostRecord.mk "101" "c" "t" "l"], "101") := by
  have hlt : ("100" : String) < "101" := str_lt_of_data (by decide)
  have hnew : isNew "100" (PostRecord.mk "101" "c" "t" "l") = true :=
    isNew_of (Or.inr hlt)
  refine Prod.ext ?_ ?_
  · rw [noveltyFilter_fst, sortPosts_singleton, List.filter_cons_of_pos hnew,
      List.filter_nil]
  · rw [noveltyFilter_snd, sortPosts_singleton, List.filter_cons_of_pos hnew,
      List.filter_nil]
    show max "100" "101" = "101"
    exact max_eq_right hlt.le

/-- C3 counterexample: with cursor `""` and one candidate whose id is
`""`, the new-set is non-empty while the updated cursor still equals the
cursor, refuting "equality exactly when the new-set is empty". -/
theorem C3_cursor_advance_counterexample :
    (noveltyFilter "" [PostRecord.mk "" "c" "t" "l"]).1 ≠ [] ∧
    (noveltyFilter "" [PostRecord.mk "" "c" "t" "l"]).2 = "" := by
  rw [noveltyFilter_empty_id]
  exact ⟨by decide, rfl⟩

/-- C3 (amended): the updated cursor is the lexicographic maximum of the
cursor and the ids of the new records (it is one of them and bounds them
all), hence `updated_cursor ≥ cursor`; it equals the cursor exactly when
the new-set is empty OR the cursor is empty and every new record's id is
the empty string. -/
theorem C3_cursor_advance_amended (c : String) (S : List PostRecord) :
    (noveltyFilter c S).2 ∈ c :: (noveltyFilter c S).1.map (fun p => p.id) ∧
    (∀ p ∈ (noveltyFilter c S).1, p.id ≤ (noveltyFilter c S).2) ∧
    c ≤ (noveltyFilter c S).2 ∧
    ((noveltyFilter c S).2 = c ↔
      ((noveltyFilter c S).1 = [] ∨
        (c = "" ∧ ∀ p ∈ (noveltyFilter c S).1, p.id = ""))) := by
  have h1 := noveltyFilter_fst c S
  have h2 := noveltyFilter_snd c S
  have hub : ∀ p ∈ (noveltyFilter c S).1, p.id ≤ (noveltyFilter c S).2 := by
    intro p hp
    rw [h2]
    exact mem_le_foldl_max c _ (h1 ▸ hp)
  have hc : c ≤ (noveltyFilter c S).2 := by
    rw [h2]; exact le_foldl_max c _
  have hmem : (noveltyFilter c S).2 ∈
      c :: (noveltyFilter c S).1.map (fun p => p.id) := by
    rcases foldl_max_mem c ((sortPosts S).filter (isNew c)) with h | ⟨q, hq, h⟩
    · rw [h2, h]; exact List.mem_cons_self _ _
    · rw [h2, h]
      exact List.mem_cons_of_mem _ (List.mem_map.mpr ⟨q, h1 ▸ hq, rfl⟩)
  refine ⟨hmem, hub, hc, ?_, ?_⟩
  · intro heq
    by_cases hF : (noveltyFilter c S).1 = []
    · exact Or.inl hF
    · have hcE : c = "" := by
        by_contra hcne
        obtain ⟨p, hp⟩ := List.exists_mem_of_ne_nil _ hF
        have hnew : isNew c p = true :=
          List.of_mem_filter (h1 ▸ hp)
        rcases isNew_true_iff.mp hnew with h | h
        · exact hcne h
        · exact absurd (lt_of_lt_of_le h (heq ▸ hub p hp)) (lt_irrefl c)
      refine Or.inr ⟨hcE, fun p hp => ?_⟩
      exact le_empty_iff.mp (hcE ▸ heq ▸ hub p hp)
  · intro h
    rcases h with hF | ⟨hcE, hids⟩
    · have hFf : List.filter (isNew c) (sortPosts S) = [] := by
        rw [← h1]; exact hF
      rw [h2, hFf]
      rfl
    · rcases List.mem_cons.mp hmem with h | h
      · exact h
      · obtain ⟨q, hq, hqe⟩ := List.mem_map.mp h
        rw [← hqe, hids q hq, hcE]

/-- C3 witness: concrete monotone advance `"100" ≤ updated`. -/
theorem C3_cursor_advance_amended_witness :
    ("100" : String) ≤ (noveltyFilter "100" [PostRecord.mk "101" "c" "t" "l"]).2 :=
  (C3_cursor_advance_amended "100" [PostRecord.mk "101" "c" "t" "l"]).2.2.1

/-- C4 counterexample: with cursor `""` and one candidate whose id is
`""`, the first run produces updated cursor `""`, and a second run with
that cursor classifies the same candidate as new again. -/
theorem C4_idempotent_rerun_counterexample :
    (noveltyFilter ((noveltyFilter "" [PostRecord.mk "" "c" "t" "l"]).2)
        [PostRecord.mk "" "c" "t" "l"]).1 ≠ [] := by
  rw [noveltyFilter_empty_id]
  show (noveltyFilter "" [PostRecord.mk "" "c" "t" "l"]).1 ≠ []
  rw [noveltyFilter_empty_id]
  decide

/-- C4 (amended): if the cursor produced by the first run is non-empty
(which fails only when the original cursor is empty and every candidate
id is the empty string), re-running the filter with it on the same
candidates yields an empty new-set. -/
theorem C4_idempotent_rerun_amended (c : String) (S : List PostRecord)
    (h : (noveltyFilter c S).2 ≠ "") :
    (noveltyFilter ((noveltyFilter c S).2) S).1 = [] := by
  rw [noveltyFilter_fst, List.filter_eq_nil_iff]
  intro p hp
  have hle : p.id ≤ (noveltyFilter c S).2 := by
    by_cases hn : isNew c p = true
    · rw [noveltyFilter_snd]
      exact mem_le_foldl_max c _ (List.mem_filter.mpr ⟨hp, hn⟩)
    · have hnot : ¬ (c = "" ∨ c < p.id) := fun hcon => hn (isNew_true_iff.mpr hcon)
      push_neg at hnot
      calc p.id ≤ c := not_lt.mp hnot.2
      _ ≤ (noveltyFilter c S).2 := by rw [noveltyFilter_snd]; exact le_foldl_max c _
  intro hnew
  rcases isNew_true_iff.mp hnew with he | hlt
  · exact h he
  · exact absurd (lt_of_lt_of_le hlt hle) (lt_irrefl _)

/-- C4 witness: cursor `"100"`, candidate id `"101"`: the first run
yields cursor `"101" ≠ ""` and the second run finds nothing new. -/
theorem C4_idempotent_rerun_amended_witness :
    (noveltyFilter "100" [PostRecord.mk "101" "c" "t" "l"]).2 ≠ "" ∧
    (noveltyFilter ((noveltyFilter "100" [PostRecord.mk "101" "c" "t" "l"]).2)
        [PostRecord.mk "101" "c" "t" "l"]).1 = [] :=
  ⟨by rw [noveltyFilter_100_101]; decide,
   C4_idempotent_rerun_amended "100" [PostRecord.mk "101" "c" "t" "l"]
     (by rw [noveltyFilter_100_101]; decide)⟩

/-- C5: the timestamp sort affects only the order of the new records:
for permuted candidate lists the filter classifies the same records as
new and computes the same updated cursor. -/
theorem C5_sort_affects_order_only (c : String) (S₁ S₂ : List PostRecord)
    (h : List.Perm S₁ S₂) :
    (∀ r, r ∈ (noveltyFilter c S₁).1 ↔ r ∈ (noveltyFilter c S₂).1) ∧
    (noveltyFilter c S₁).2 = (noveltyFilter c S₂).2 := by
  have hs : List.Perm (sortPosts S₁) (sortPosts S₂) :=
    (sortPosts_perm S₁).trans (h.trans (sortPosts_perm S₂).symm)
  have hfil : List.Perm ((sortPosts S₁).filter (isNew c))
      ((sortPosts S₂).filter (isNew c)) := hs.filter _
  constructor
  · intro r
    rw [noveltyFilter_fst, noveltyFilter_fst]
    exact hfil.mem_iff
  · rw [noveltyFilter_snd, noveltyFilter_snd]
    exact foldl_max_perm hfil c

/-- C5 witness: swapping two concrete candidates leaves the updated
cursor unchanged. -/
theorem C5_sort_affects_order_only_witness :
    List.Perm [PostRecord.mk "101" "c" "ta" "l", PostRecord.mk "102" "c" "tb" "l"]
      [PostRecord.mk "102" "c" "tb" "l", PostRecord.mk "101" "c" "ta" "l"] ∧
    (noveltyFilter "100"
        [PostRecord.mk "101" "c" "ta" "l", PostRecord.mk "102" "c" "tb" "l"]).2 =
      (noveltyFilter "100"
        [PostRecord.mk "102" "c" "tb" "l", PostRecord.mk "101" "c" "ta" "l"]).2 :=
  have hp : List.Perm
      [PostRecord.mk "101" "c" "ta" "l", PostRecord.mk "102" "c" "tb" "l"]
      [PostRecord.mk "102" "c" "tb" "l", PostRecord.mk "101" "c" "ta" "l"] :=
    List.Perm.swap _ _ []
  ⟨hp, (C5_sort_affects_order_only "100" _ _ hp).2⟩

/-- C6: whenever the novelty filter finds new records, `main` attempts
one delivery per new record (in order) and performs exactly one cursor
write, with the updated cursor of the whole batch — for every delivery
configuration and transport behaviour, i.e. regardless of which
deliveries fail. -/
theorem C6_delivery_isolation (token uid : Option String)
    (transport : String → Option Nat) (fetch : FetchOutcome)
    (fs : Option String)
    (h : (noveltyFilter (get_last_processed_id fs) (get_trump_posts fetch)).1 ≠ []) :
    (main token uid transport fetch fs).attempts.map Prod.fst =
      (noveltyFilter (get_last_processed_id fs) (get_trump_posts fetch)).1.map
        message_for ∧
    (main token uid transport fetch fs).saves =
      [(noveltyFilter (get_last_processed_id fs) (get_trump_posts fetch)).2] := by
  have hposts : ¬ get_trump_posts fetch = [] := by
    intro he
    apply h
    rw [he, noveltyFilter_fst]
    simp [sortPosts]
  simp only [main]
  rw [if_neg hposts, if_neg h]
  constructor
  · rw [List.map_map]
    rfl
  · rfl

/-- C6 witness: one new record whose delivery fails (transport raises),
yet the attempt is made and the cursor is persisted once. -/
theorem C6_delivery_isolation_witness :
    (noveltyFilter (get_last_processed_id (some "100"))
        (get_trump_posts (.success 200 [PostRecord.mk "101" "c" "t" "l"]))).1 ≠ [] ∧
    (main (some "tok") (some "uid") (fun _ => none)
        (.success 200 [PostRecord.mk "101" "c" "t" "l"]) (some "100")).saves =
      [(noveltyFilter (get_last_processed_id (some "100"))
          (get_trump_posts (.success 200 [PostRecord.mk "101" "c" "t" "l"]))).2] := by
  have hne : (noveltyFilter (get_last_processed_id (some "100"))
      (get_trump_posts (.success 200 [PostRecord.mk "101" "c" "t" "l"]))).1 ≠ [] := by
    show (noveltyFilter "100" [PostRecord.mk "101" "c" "t" "l"]).1 ≠ []
    rw [noveltyFilter_100_101]
    decide
  exact ⟨hne,
    (C6_delivery_isolation (some "tok") (some "uid") (fun _ => none)
      (.success 200 [PostRecord.mk "101" "c" "t" "l"]) (some "100") hne).2⟩

/-- The fetch-error condition of the spec (§7): a network exception or a
non-2xx response status. -/
def fetchFailed : FetchOutcome → Prop
  | .exn => True
  | .success status _ => status < 200 ∨ 300 ≤ status

/-- C7: a fetch error yields an empty candidate list without raising,
and the run then performs no delivery attempt and no cursor write. -/
theorem C7_fetch_error_soft (token uid : Option String)
    (transport : String → Option Nat) (fs : Option String)
    (o : FetchOutcome) (h : fetchFailed o) :
    get_trump_posts o = [] ∧
    main token uid transport o fs = ⟨[], []⟩ := by
  have hempty : get_trump_posts o = [] := by
    cases o with
    | exn => rfl
    | success status parsed =>
      have hne : status ≠ 200 := by
        have h' : status < 200 ∨ 300 ≤ status := h
        omega
      simp [get_trump_posts, hne]
  refine ⟨hempty, ?_⟩
  simp only [main]
  rw [if_pos hempty]

/-- C7 witness: a 404 response is a fetch error, yields no candidates,
and the run makes no delivery attempt and no cursor write. -/
theorem C7_fetch_error_soft_witness :
    fetchFailed (.success 404 [PostRecord.mk "101" "c" "t" "l"]) ∧
    get_trump_posts (.success 404 [PostRecord.mk "101" "c" "t" "l"]) = [] ∧
    main (some "tok") (some "uid") (fun _ => some 200)
      (.success 404 [PostRecord.mk "101" "c" "t" "l"]) (some "200") = ⟨[], []⟩ := by
  have h : fetchFailed (.success 404 [PostRecord.mk "101" "c" "t" "l"]) :=
    Or.inr (by omega)
  obtain ⟨h1, h2⟩ := C7_fetch_error_soft (some "tok") (some "uid")
    (fun _ => some 200) (some "200") (.success 404 [PostRecord.mk "101" "c" "t" "l"]) h
  exact ⟨h, h1, h2⟩

/-- C9: `send_line_notification` is total by construction (every
transport outcome, including a raised exception, maps to a boolean) and
returns `true` exactly when both the channel token and the user id are
configured (set and non-empty) and the POST returns status 200. -/
theorem C9_send_total (token uid : Option String)
    (transport : String → Option Nat) (m : String) :
    send_line_notification token uid transport m = true ↔
      (token.getD "" ≠ "" ∧ uid.getD "" ≠ "" ∧ transport m = some 200) := by
  unfold send_line_notification
  by_cases h : token.getD "" = "" ∨ uid.getD "" = ""
  · rw [if_pos h]
    simp only [Bool.false_eq_true, false_iff]
    rintro ⟨h1, h2, _⟩
    rcases h with h | h
    · exact h1 h
    · exact h2 h
  · rw [if_neg h]
    push_neg at h
    cases htr : transport m with
    | none => simp [h, htr]
    | some status => simp [h.1, h.2, htr]

/-- C10: reading the cursor right after saving `s` returns `s` stripped
of leading and trailing whitespace; when `s` has no surrounding
whitespace the round-trip is the identity. -/
theorem C10_cursor_roundtrip (s : String) (fs : Option String) :
    get_last_processed_id (save_last_processed_id s fs) = pyStrip s ∧
    ((∀ c ∈ s.data.head?, isPythonSpace c = false) →
     (∀ c ∈ s.data.getLast?, isPythonSpace c = false) →
     get_last_processed_id (save_last_processed_id s fs) = s) := by
  refine ⟨rfl, fun hh hl => ?_⟩
  show pyStrip s = s
  unfold pyStrip
  have hdrop : s.data.dropWhile isPythonSpace = s.data := by
    cases hs : s.data with
    | nil => rfl
    | cons a t =>
      have ha : isPythonSpace a = false := hh a (by rw [hs]; rfl)
      rw [List.dropWhile_cons_of_neg (by simp [ha])]
  rw [hdrop]
  have hr : s.data.rdropWhile isPythonSpace = s.data := by
    rw [List.rdropWhile_eq_self_iff]
    intro hne
    have hla : isPythonSpace (s.data.getLast hne) = false :=
      hl _ (by rw [List.getLast?_eq_getLast _ hne]; exact rfl)
    simp [hla]
  rw [hr]

/-- C10 witness: saving `"abc"` and reading it back returns `"abc"`. -/
theorem C10_cursor_roundtrip_witness :
    (∀ c ∈ ("abc" : String).data.head?, isPythonSpace c = false) ∧
    (∀ c ∈ ("abc" : String).data.getLast?, isPythonSpace c = false) ∧
    get_last_processed_id (save_last_processed_id "abc" none) = "abc" :=
  ⟨by decide, by decide,
   (C10_cursor_roundtrip "abc" none).2 (by decide) (by decide)⟩

end TruthSocial
